import Mathlib

/-!
# Verification of the `helper-utils` logging subsystem

Shallow embedding of the repository's logging code:

* `src/utils/Logger.js` (two variants of `UniversalLogger`, registry
  `getLoggerInstance`/`createLogger`),
* `src/utils/MongoConnection.js` (`mongoConnect` with `MAX_RETRY = 3`),
* `src/utils/RequestContext.js` (AsyncLocalStorage-backed context),
* `src/unnamed/part_004` (the schema-based `Logger` with `getLogger`).

JavaScript values that may be `undefined`/`null` are modelled as `Option`;
JS truthiness of strings (`""` and `undefined` are falsy) is made explicit.
Thrown exceptions are modelled with `Except`.  Winston's level dispatch
(npm levels: error 0, warn 1, info 2, debug 5; a transport delivers a
record whose priority is at most the threshold of both the logger and the
transport) is embedded for the transports the code configures.
-/

namespace HelperUtils

/-- The four log levels the repository uses, with winston's npm priorities
(error 0, warn 1, info 2, debug 5; lower = more severe). -/
inductive Level
  | error
  | warn
  | info
  | debug
deriving DecidableEq, Repr

/-- Winston npm priority of a level. -/
def Level.priority : Level → Nat
  | .error => 0
  | .warn => 1
  | .info => 2
  | .debug => 5

/-- `level.toUpperCase()` as appearing in the custom printf format. -/
def Level.upperName : Level → String
  | .error => "ERROR"
  | .warn => "WARN"
  | .info => "INFO"
  | .debug => "DEBUG"

/-- The custom printf format used by every console/file configuration in
`Logger.js`: `` `${timestamp} [${level.toUpperCase()}]: ${message}` ``. -/
def customFormat (ts : String) (lvl : Level) (msg : String) : String :=
  ts ++ " [" ++ lvl.upperName ++ "]: " ++ msg

/-- JS truthiness of a possibly-`undefined` string: `undefined` and `""`
are falsy. -/
def jsTruthy : Option String → Bool
  | none => false
  | some s => s ≠ ""

/-- JS `a || b` on possibly-`undefined` strings. -/
def jsOrV (a b : Option String) : Option String :=
  if jsTruthy a then a else b

/-- JS `a || d` where the fallback `d` is a string literal. -/
def jsOrD (a : Option String) (d : String) : String :=
  if jsTruthy a then a.getD d else d

/-- The ambient request context object (`RequestContext` attribute bag).
Every field may be absent (`undefined`). -/
structure Ctx where
  requestId : Option String := none
  userId : Option String := none
  ip : Option String := none
  userAgent : Option String := none
  method : Option String := none
  url : Option String := none
  service : Option String := none
deriving DecidableEq, Repr

/-- The empty context `{}`. -/
def Ctx.empty : Ctx := {}

/-- Process-level environment the logger reads (`process.env`). -/
structure ProcEnv where
  LOG_LEVEL : Option Level := none
  SERVICE_NAME : Option String := none
  npm_package_name : Option String := none
deriving DecidableEq, Repr

/-- The effective logger/console level: `process.env.LOG_LEVEL || "info"`. -/
def ProcEnv.effLevel (env : ProcEnv) : Level :=
  env.LOG_LEVEL.getD .info

/-- Environment seen by `UniversalLogger.#getContext` (variant 1,
`src/utils/Logger.js` lines 128–142).

* `requestContextGet = none`: `global.requestContext` is absent (or has no
  `get` function).
* `some (.error e)`: `global.requestContext.get()` throws.
* `some (.ok v)`: `get()` returns `v` (`none` modelling `undefined`/`null`).
* `cls = none`: `global.cls` is absent.
* `cls = some none`: `global.cls.getNamespace("request")` returns
  `null`/`undefined`.
* `cls = some (some active)`: the namespace exists and `namespace.active`
  is `active` (`none` modelling `null`, which cls yields when no context
  is bound). -/
structure ContextEnv where
  requestContextGet : Option (Except String (Option Ctx)) := none
  cls : Option (Option (Option Ctx)) := none

/-- `UniversalLogger.#getContext` (variant 1).  Starts from `ctx = {}`;
the `try` block first consults `global.requestContext`, then `global.cls`
(the second `if` overwrites the first); a throw anywhere in the block is
caught and yields `{}`.  The result is `none` exactly when the cls branch
assigns `namespace.active` and that value is `null`/`undefined` — the code
guards against a missing namespace (`namespace ? namespace.active : {}`)
but not against a missing `active`. -/
def getContext (env : ContextEnv) : Option Ctx :=
  match env.requestContextGet with
  | some (.error _) => some Ctx.empty
  | rc =>
    let ctx1 : Option Ctx :=
      match rc with
      | none => some Ctx.empty
      | some (.ok v) => some (v.getD Ctx.empty)
      | some (.error _) => some Ctx.empty
    match env.cls with
    | none => ctx1
    | some none => some Ctx.empty
    | some (some active) => active

/-- Caller-supplied `meta` for the fields that the `...meta` spread in
`#log` could collide with (`some v` means the key is present in `meta`
with value `v`; absent keys leave the computed field in place). -/
structure Meta where
  requestId : Option String := none
  service : Option String := none
deriving DecidableEq, Repr

/-- The `logData` record built by `UniversalLogger.#log` (variant 1,
lines 147–157). -/
structure LogRecord where
  message : String
  requestId : String
  userId : Option String
  ip : Option String
  userAgent : Option String
  method : Option String
  url : Option String
  service : String
  level : Level
deriving DecidableEq, Repr

/-- `UniversalLogger.#log`'s `logData` construction (variant 1): each field
defaults from the context (`context.x || fallback`), and the trailing
`...meta` spread overrides any field `meta` itself carries. -/
def mkLogData (env : ProcEnv) (serviceName : String) (ctx : Ctx)
    (lvl : Level) (msg : String) (meta : Meta) : LogRecord :=
  { message := msg
    requestId := match meta.requestId with
      | some v => v
      | none => jsOrD ctx.requestId "NO-REQ"
    userId := ctx.userId
    ip := ctx.ip
    userAgent := ctx.userAgent
    method := ctx.method
    url := ctx.url
    service := match meta.service with
      | some v => v
      | none =>
          (jsOrV ctx.service (jsOrV (some serviceName)
            (jsOrV env.SERVICE_NAME (some "app")))).getD "app"
    level := lvl }

/-- The `service` field of variant 2's `#log` (`src/utils/Logger.js`
lines 340–356): `process.env.SERVICE_NAME || process.env.npm_package_name
|| "app"`, independent of the ambient context. -/
def v2Service (env : ProcEnv) (ctx : Ctx) : String :=
  let _ := ctx
  (jsOrV env.SERVICE_NAME (jsOrV env.npm_package_name (some "app"))).getD "app"

/-- Which transport set the variant-1 logger currently holds:
`console` is the configuration installed by `#initConsoleLogger`
(File + Console), `db` the one installed by `#reconfigureWithDatabase`
(File + MongoDB, no Console). -/
inductive Mode
  | console
  | db
deriving DecidableEq, Repr

/-- A winston transport as configured by the code: its kind, its own level
threshold, and whether it renders with the custom printf format (`true`)
or `winston.format.json()` (`false`). -/
inductive TransportKind
  | consoleT
  | fileT
  | mongoT
deriving DecidableEq, Repr

structure Transport where
  kind : TransportKind
  tlevel : Level
  customFmt : Bool
deriving DecidableEq, Repr

/-- Transports of `#initConsoleLogger` (variant 1, lines 32–45): a File
transport at level `error` (inheriting the logger's custom format) and a
Console transport at `LOG_LEVEL || "info"` with the colorized custom
format. -/
def consoleCfg (env : ProcEnv) : List Transport :=
  [ { kind := .fileT, tlevel := .error, customFmt := true },
    { kind := .consoleT, tlevel := env.effLevel, customFmt := true } ]

/-- Transports of `#reconfigureWithDatabase` (variant 1, lines 110–119): a
File transport at level `error` and a MongoDB transport at
`LOG_LEVEL || "info"`, both JSON-formatted; no Console transport. -/
def dbCfg (env : ProcEnv) : List Transport :=
  [ { kind := .fileT, tlevel := .error, customFmt := false },
    { kind := .mongoT, tlevel := env.effLevel, customFmt := false } ]

/-- The transports active in a given mode. -/
def transportsOf (env : ProcEnv) : Mode → List Transport
  | .console => consoleCfg env
  | .db => dbCfg env

/-- Winston delivery: a record at level `lvl` reaches a transport iff its
priority is within both the logger-wide threshold and the transport's own
threshold. -/
def delivered (loggerLevel : Level) (t : Transport) (lvl : Level) : Bool :=
  lvl.priority ≤ loggerLevel.priority && lvl.priority ≤ t.tlevel.priority

/-- One rendered output line. -/
inductive OutLine
  | custom (ts : String) (lvl : Level) (msg : String)
  | json (rec : LogRecord) (ts : String)
deriving DecidableEq, Repr

/-- Text of an output line; the custom lines render with `customFormat`. -/
def OutLine.render : OutLine → Option String
  | .custom ts lvl msg => some (customFormat ts lvl msg)
  | .json _ _ => none

/-- What a single `#logger.log(level, message, logData)` call produces on
each sink, given the active transports. -/
structure LogOutput where
  consoleLines : List OutLine
  fileLines : List OutLine
  mongoWrites : List LogRecord
deriving DecidableEq, Repr

def emitTo (t : Transport) (rec : LogRecord) (ts : String) : OutLine :=
  if t.customFmt then .custom ts rec.level rec.message else .json rec ts

/-- Dispatch one record to the transport list. -/
def dispatch (env : ProcEnv) (mode : Mode) (rec : LogRecord) (ts : String) :
    LogOutput :=
  let ts' := transportsOf env mode
  let hit := fun k => (ts'.filter fun t =>
    t.kind = k ∧ delivered env.effLevel t rec.level)
  { consoleLines := (hit .consoleT).map (emitTo · rec ts)
    fileLines := (hit .fileT).map (emitTo · rec ts)
    mongoWrites := (hit .mongoT).map fun _ => rec }

/-- `UniversalLogger.#log` (variant 1): reads the ambient context, builds
`logData`, hands it to the winston logger.  When `#getContext` returns
`null`/`undefined` (the unguarded `namespace.active` path), the property
accesses `context.requestId` etc. throw a `TypeError` that propagates to
the caller; otherwise the call returns normally with the produced sink
output. -/
def univLog (env : ProcEnv) (cenv : ContextEnv) (mode : Mode)
    (serviceName : String) (lvl : Level) (msg : String) (meta : Meta)
    (ts : String) : Except String LogOutput :=
  match getContext cenv with
  | none => .error "TypeError: cannot read properties of null"
  | some ctx =>
    .ok (dispatch env mode (mkLogData env serviceName ctx lvl msg meta) ts)

/-! ## Instance registry (`src/utils/Logger.js` lines 189–201)

`loggerInstances` is a `Map`; `getLoggerInstance` checks `has`, constructs
and `set`s on a miss, and returns `get`.  The function body contains no
`await`, so in JavaScript's run-to-completion model each call executes
atomically; a sequence of calls is a sequence of atomic steps. -/

/-- Registry state: the map (service name ↦ instance id), the next fresh
instance id, and the log of construction events (service names, in
order). -/
structure RegState where
  map : List (String × Nat)
  nextId : Nat
  constructions : List String
deriving DecidableEq, Repr

def RegState.init : RegState := ⟨[], 0, []⟩

/-- `loggerInstances.get(name)` (lookup in the map). -/
def lookupName (m : List (String × Nat)) (k : String) : Option Nat :=
  match m with
  | [] => none
  | (k', v) :: rest => if k' = k then some v else lookupName rest k

/-- One call `getLoggerInstance(name)`: returns the instance id handed to
the caller and the new registry state.  A `new UniversalLogger(name)` is
recorded as a construction event. -/
def getLoggerInstance (st : RegState) (name : String) : Nat × RegState :=
  match lookupName st.map name with
  | some id => (id, st)
  | none =>
    (st.nextId,
     { map := (name, st.nextId) :: st.map
       nextId := st.nextId + 1
       constructions := st.constructions ++ [name] })

/-- Run a sequence of `getLoggerInstance` calls, collecting the returned
instance ids in order. -/
def runCalls (st : RegState) : List String → List Nat × RegState
  | [] => ([], st)
  | n :: rest =>
    ((getLoggerInstance st n).1 ::
       (runCalls (getLoggerInstance st n).2 rest).1,
     (runCalls (getLoggerInstance st n).2 rest).2)

/-! ## `mongoConnect` (`src/utils/MongoConnection.js`)

`MAX_RETRY = 3`; on failure with `retry < MAX_RETRY` the function calls
itself with `retry + 1` but neither awaits nor returns the recursive call,
so the caller's promise settles from the current frame alone: it resolves
with the fresh connection on success, resolves with `undefined` when a
retry was spawned, and rejects only at `retry = MAX_RETRY`.  The spawned
retry chain still runs (orphaned).  An attempt's outcome is a function of
its retry index; a successful attempt at index `k` yields connection
handle `k`. -/

def MAX_RETRY : Nat := 3

/-- Value of the promise returned by `mongoConnect({connectionString,
retry})`: `.ok (some k)` = resolves with the connection made on attempt
`k`; `.ok none` = resolves with `undefined`; `.error` = rejects.  An empty
connection string throws before any connection attempt, and is caught by
the same `catch`. -/
def mongoConnectResult (cs : String) (outcome : Nat → Bool) (r : Nat) :
    Except String (Option Nat) :=
  if cs = "" then
    if r < MAX_RETRY then .ok none else .error "Connection string is required"
  else if outcome r then .ok (some r)
  else if r < MAX_RETRY then .ok none
  else .error "connect failed"

/-- The retry indices at which `mongoose.createConnection` is actually
invoked across the whole (orphan-including) recursion, starting at retry
index `r` with `left = MAX_RETRY - r` retries still allowed.  Structural
recursion on `left`. -/
def mongoAttemptsAux (cs : String) (outcome : Nat → Bool) :
    Nat → Nat → List Nat
  | r, 0 =>
    if cs = "" then [] else [r]
  | r, left + 1 =>
    if cs = "" then mongoAttemptsAux cs outcome (r + 1) left
    else if outcome r then [r]
    else r :: mongoAttemptsAux cs outcome (r + 1) left

/-- All connection attempts executed by a top-level
`mongoConnect({connectionString, retry: 0})` call, orphaned retries
included. -/
def mongoAttempts (cs : String) (outcome : Nat → Bool) : List Nat :=
  mongoAttemptsAux cs outcome 0 MAX_RETRY

/-! ## `UniversalLogger` database initialization (variant 1, lines 48–98)

`#autoInitDatabase` and the synchronous prefix of `#performDatabaseInit`
execute inside one JavaScript run-to-completion slice: between the
`#initPromise` check and the assignment `this.#initPromise = …` no other
caller can interleave (the first `await` inside `#performDatabaseInit`
comes after `#isInitializing = true` and after `createConnection` starts).
So an execution is a sequence of atomic events: an `auto` event (one
`#autoInitDatabase` invocation, which either observes an existing promise,
returns early, or starts attempt number `attemptsStarted`) and a
`complete` event (the continuation of `#performDatabaseInit` after its
`await` resolves or rejects; on success `#reconfigureWithDatabase`
installs the `db` transports and sets `#isInitialized`, on failure
`#initConsoleLogger` reinstalls the console transports; `finally` clears
`#isInitializing`). -/

structure UniInit where
  isInitializing : Bool
  isInitialized : Bool
  initPromise : Option Nat
  attemptsStarted : Nat
  mode : Mode
deriving DecidableEq, Repr

/-- State right after the constructor (`#initConsoleLogger` done,
`#autoInitDatabase` not yet run). -/
def UniInit.start : UniInit :=
  ⟨false, false, none, 0, .console⟩

/-- One `#autoInitDatabase` invocation with configured `DB_URL = dbUrl`
(`none`/`""` are falsy).  Returns the new state and the attempt the caller
observes (the value of `#initPromise` it gets back, if any). -/
def uniAutoInit (dbUrl : Option String) (st : UniInit) :
    UniInit × Option Nat :=
  match st.initPromise with
  | some p => (st, some p)
  | none =>
    if st.isInitialized || st.isInitializing then (st, none)
    else if jsTruthy dbUrl then
      (⟨true, st.isInitialized, some st.attemptsStarted,
        st.attemptsStarted + 1, st.mode⟩, some st.attemptsStarted)
    else (st, none)

/-- The pending attempt resolves (`success = true`: `await` succeeded,
reconfigure with MongoDB; `false`: the `catch` branch reinstalls the
console logger).  When no attempt is in flight there is nothing to
complete. -/
def uniComplete (success : Bool) (st : UniInit) : UniInit :=
  if st.isInitializing then
    if success then
      { st with isInitializing := false, isInitialized := true, mode := .db }
    else
      { st with isInitializing := false, mode := .console }
  else st

inductive UniEv
  | auto
  | complete (success : Bool)
deriving DecidableEq, Repr

def uniStep (dbUrl : Option String) (st : UniInit) : UniEv → UniInit
  | .auto => (uniAutoInit dbUrl st).1
  | .complete s => uniComplete s st

def uniRun (dbUrl : Option String) (st : UniInit) : List UniEv → UniInit
  | [] => st
  | e :: evs => uniRun dbUrl (uniStep dbUrl st e) evs

/-! ## The schema-based logger (`src/unnamed/part_004`) -/

/-- Console message of `Logger.#log`:
`` `[${ctx.requestId || "NO-ID"}] ${message}` ``. -/
def p4ConsoleMessage (ctx : Ctx) (msg : String) : String :=
  "[" ++ jsOrD ctx.requestId "NO-ID" ++ "] " ++ msg

/-- What one `part_004` `#log` call produces: the prefixed console/file
message, and the error reports emitted by the `.catch` handler when the
`#logModel.create` promise rejects. -/
structure P4Out where
  consoleMessage : String
  dbErrorReports : List String
deriving DecidableEq, Repr

/-- `part_004` `Logger.#log`: `requestContext.get() || {}` always yields
an object (`RequestContext.js` returns `getStore() || {}`), the winston
call is synchronous, and the `#logModel.create(...)` rejection is consumed
by `.catch`, which reports through the winston logger; the call itself
always returns normally. -/
def p4Log (ctx : Ctx) (lvl : Level) (msg : String)
    (dbResult : Except String Unit) : Except String P4Out :=
  let _ := lvl
  .ok
    { consoleMessage := p4ConsoleMessage ctx msg
      dbErrorReports :=
        match dbResult with
        | .ok _ => []
        | .error e => ["Failed to log to DB: " ++ e] }

/-- `part_004` singleton (`getLogger`, lines 96–106): a single module-level
promise caches the one `Logger`; the `tableName` argument does not
participate in the cache check.  State: the cached promise (as the id of
the constructed instance) and the number of `new Logger(...)`
constructions. -/
structure P4State where
  promise : Option Nat
  constructions : Nat
deriving DecidableEq, Repr

def P4State.start : P4State := ⟨none, 0⟩

/-- One `getLogger(tableName)` call; the name is ignored by the
`if (!loggerInstancePromise)` check. -/
def p4GetLogger (st : P4State) (tableName : String) : Nat × P4State :=
  let _ := tableName
  match st.promise with
  | some p => (p, st)
  | none => (st.constructions, ⟨some st.constructions, st.constructions + 1⟩)

def p4Run (st : P4State) : List String → List Nat × P4State
  | [] => ([], st)
  | n :: rest =>
    ((p4GetLogger st n).1 :: (p4Run (p4GetLogger st n).2 rest).1,
     (p4Run (p4GetLogger st n).2 rest).2)

/-- Projection helpers for stating sink-level facts about a logging call's
result. -/
def consoleLinesOf (r : Except String LogOutput) : List OutLine :=
  match r with
  | .ok o => o.consoleLines
  | .error _ => []

def fileLinesOf (r : Except String LogOutput) : List OutLine :=
  match r with
  | .ok o => o.fileLines
  | .error _ => []

def mongoWritesOf (r : Except String LogOutput) : List LogRecord :=
  match r with
  | .ok o => o.mongoWrites
  | .error _ => []

/-! ## Dispatch lemmas -/

theorem dispatch_console_consoleLines (env : ProcEnv) (rec : LogRecord)
    (ts : String) :
    (dispatch env .console rec ts).consoleLines =
      if rec.level.priority ≤ env.effLevel.priority then
        [.custom ts rec.level rec.message]
      else [] := by
  obtain ⟨msg, rid, uid, ip, ua, mth, url, svc, lvl⟩ := rec
  obtain ⟨ll, sn, npm⟩ := env
  cases lvl <;> rcases ll with _ | l <;> (try cases l) <;> rfl

theorem dispatch_db_consoleLines (env : ProcEnv) (rec : LogRecord)
    (ts : String) :
    (dispatch env .db rec ts).consoleLines = [] := by
  obtain ⟨msg, rid, uid, ip, ua, mth, url, svc, lvl⟩ := rec
  obtain ⟨ll, sn, npm⟩ := env
  cases lvl <;> rcases ll with _ | l <;> (try cases l) <;> rfl

theorem dispatch_console_fileLines (env : ProcEnv) (rec : LogRecord)
    (ts : String) :
    (dispatch env .console rec ts).fileLines =
      if rec.level = .error then [.custom ts rec.level rec.message]
      else [] := by
  obtain ⟨msg, rid, uid, ip, ua, mth, url, svc, lvl⟩ := rec
  obtain ⟨ll, sn, npm⟩ := env
  cases lvl <;> rcases ll with _ | l <;> (try cases l) <;> rfl

theorem dispatch_db_fileLines (env : ProcEnv) (rec : LogRecord)
    (ts : String) :
    (dispatch env .db rec ts).fileLines =
      if rec.level = .error then [.json rec ts] else [] := by
  obtain ⟨msg, rid, uid, ip, ua, mth, url, svc, lvl⟩ := rec
  obtain ⟨ll, sn, npm⟩ := env
  cases lvl <;> rcases ll with _ | l <;> (try cases l) <;> rfl

theorem dispatch_console_mongoWrites (env : ProcEnv) (rec : LogRecord)
    (ts : String) :
    (dispatch env .console rec ts).mongoWrites = [] := by
  obtain ⟨msg, rid, uid, ip, ua, mth, url, svc, lvl⟩ := rec
  obtain ⟨ll, sn, npm⟩ := env
  cases lvl <;> rcases ll with _ | l <;> (try cases l) <;> rfl

theorem mkLogData_level (env : ProcEnv) (sn : String) (ctx : Ctx)
    (lvl : Level) (msg : String) (meta : Meta) :
    (mkLogData env sn ctx lvl msg meta).level = lvl := rfl

theorem mkLogData_message (env : ProcEnv) (sn : String) (ctx : Ctx)
    (lvl : Level) (msg : String) (meta : Meta) :
    (mkLogData env sn ctx lvl msg meta).message = msg := rfl

/-! ## Registry lemmas -/

theorem lookupName_cons (n k : String) (v : Nat) (m : List (String × Nat)) :
    lookupName ((n, v) :: m) k = if n = k then some v else lookupName m k :=
  rfl

/-- A binding, once present, survives any later `getLoggerInstance` call,
which also returns the bound id when asked for the same name and performs
no construction for that name. -/
theorem getLoggerInstance_preserve (st : RegState) (n X : String) (id : Nat)
    (h : lookupName st.map X = some id) :
    lookupName (getLoggerInstance st n).2.map X = some id
    ∧ (n = X → (getLoggerInstance st n).1 = id)
    ∧ (getLoggerInstance st n).2.constructions.count X =
        st.constructions.count X := by
  unfold getLoggerInstance
  cases hn : lookupName st.map n with
  | some v =>
    refine ⟨h, ?_, rfl⟩
    rintro rfl
    rw [h] at hn
    cases hn
    rfl
  | none =>
    by_cases hnx : n = X
    · subst hnx
      rw [h] at hn
      cases hn
    · have hxn : X ≠ n := Ne.symm hnx
      refine ⟨?_, fun h' => absurd h' hnx, ?_⟩
      · simpa [lookupName_cons, hnx] using h
      · simp [List.count_append, List.count_singleton', beq_iff_eq, hxn]

/-- When `X` is unbound and a different name is requested, `X` stays
unbound and its construction count is unchanged. -/
theorem getLoggerInstance_unbound_other (st : RegState) (n X : String)
    (hB : lookupName st.map X = none) (hnx : n ≠ X) :
    lookupName (getLoggerInstance st n).2.map X = none
    ∧ (getLoggerInstance st n).2.constructions.count X =
        st.constructions.count X := by
  have hxn : X ≠ n := Ne.symm hnx
  unfold getLoggerInstance
  cases hn : lookupName st.map n with
  | some v => exact ⟨hB, rfl⟩
  | none =>
    constructor
    · simp [lookupName_cons, hnx, hB]
    · simp [List.count_append, List.count_singleton', beq_iff_eq, hxn]

/-- When `X` is unbound and requested, the call constructs a fresh
instance, binds it, and bumps the construction count by one. -/
theorem getLoggerInstance_unbound_self (st : RegState) (X : String)
    (hB : lookupName st.map X = none) :
    (getLoggerInstance st X).1 = st.nextId
    ∧ lookupName (getLoggerInstance st X).2.map X = some st.nextId
    ∧ (getLoggerInstance st X).2.constructions.count X =
        st.constructions.count X + 1 := by
  unfold getLoggerInstance
  rw [hB]
  refine ⟨rfl, ?_, ?_⟩
  · simp [lookupName_cons]
  · simp [List.count_append, List.count_singleton]

/-- Invariant carried through `runCalls`: the construction count for `X`
grows by one exactly when `X` was unbound and occurs in the calls; bound
ids survive; and every call made with name `X` returns the id under which
`X` is bound in the final registry. -/
theorem runCalls_spec (X : String) :
    ∀ (calls : List String) (st : RegState),
      ((runCalls st calls).2.constructions.count X =
        st.constructions.count X +
          (if lookupName st.map X = none ∧ X ∈ calls then 1 else 0))
      ∧ (∀ id, lookupName st.map X = some id →
          lookupName (runCalls st calls).2.map X = some id)
      ∧ (∀ p ∈ calls.zip (runCalls st calls).1, p.1 = X →
          some p.2 = lookupName (runCalls st calls).2.map X) := by
  intro calls
  induction calls with
  | nil =>
    intro st
    refine ⟨by simp [runCalls], fun id h => h, ?_⟩
    intro p hp
    simp [runCalls] at hp
  | cons n rest ih =>
    intro st
    obtain ⟨IH1, IH2, IH3⟩ := ih (getLoggerInstance st n).2
    have hst2 : (runCalls st (n :: rest)).2 =
        (runCalls (getLoggerInstance st n).2 rest).2 := rfl
    have hzip : (n :: rest).zip (runCalls st (n :: rest)).1 =
        (n, (getLoggerInstance st n).1) ::
          rest.zip (runCalls (getLoggerInstance st n).2 rest).1 := rfl
    refine ⟨?_, ?_, ?_⟩
    · rw [hst2, IH1]
      by_cases hX : lookupName st.map X = none
      · by_cases hnx : n = X
        · subst hnx
          obtain ⟨h1, h2, h3⟩ := getLoggerInstance_unbound_self st n hX
          simp [h2, h3, hX]
        · obtain ⟨h1, h2⟩ := getLoggerInstance_unbound_other st n X hX hnx
          simp [h1, h2, hX, List.mem_cons, Ne.symm hnx]
      · obtain ⟨id, hid⟩ : ∃ id, lookupName st.map X = some id := by
          cases h : lookupName st.map X with
          | none => exact absurd h hX
          | some id => exact ⟨id, rfl⟩
        obtain ⟨hpres, _, hcnt⟩ := getLoggerInstance_preserve st n X id hid
        simp [hpres, hcnt, hid]
    · intro id h
      rw [hst2]
      exact IH2 id (getLoggerInstance_preserve st n X id h).1
    · intro p hp hpx
      rw [hst2]
      rw [hzip] at hp
      rcases List.mem_cons.mp hp with heq | hmem
      · rw [heq] at hpx ⊢
        simp only at hpx ⊢
        cases hpx
        cases hX : lookupName st.map X with
        | some id =>
          obtain ⟨hpres, hret, _⟩ := getLoggerInstance_preserve st X X id hX
          rw [hret rfl, IH2 id hpres]
        | none =>
          obtain ⟨h1, h2, _⟩ := getLoggerInstance_unbound_self st X hX
          rw [h1, IH2 st.nextId h2]
      · exact IH3 p hmem hpx

/-! ## `part_004` singleton lemmas -/

/-- Once the module-level promise is set, every later `getLogger` call
returns it and constructs nothing. -/
theorem p4Run_cached (p : Nat) :
    ∀ (names : List String) (st : P4State), st.promise = some p →
      p4Run st names = (names.map fun _ => p, st) := by
  intro names
  induction names with
  | nil => intro st h; rfl
  | cons n rest ih =>
    intro st h
    have hstep : p4GetLogger st n = (p, st) := by
      unfold p4GetLogger
      rw [h]
    simp [p4Run, hstep, ih st h]

/-- Over any sequence of `getLogger` calls: at most one `Logger` is ever
constructed (exactly one when there is at least one call), and every call
returns the instance the first call constructed. -/
theorem p4Run_spec (names : List String) :
    (p4Run P4State.start names).2.constructions =
      (if names = [] then 0 else 1)
    ∧ ∀ r ∈ (p4Run P4State.start names).1, r = 0 := by
  cases names with
  | nil => exact ⟨rfl, by intro r hr; simp [p4Run] at hr⟩
  | cons n rest =>
    have hstep : p4GetLogger P4State.start n = (0, ⟨some 0, 1⟩) := rfl
    have hcached := p4Run_cached 0 rest ⟨some 0, 1⟩ rfl
    constructor
    · simp [p4Run, hstep, hcached]
    · intro r hr
      have hids : (p4Run P4State.start (n :: rest)).1 =
          0 :: (rest.map fun _ => 0) := by
        simp [p4Run, hstep, hcached]
      rw [hids] at hr
      rcases List.mem_cons.mp hr with h | h
      · exact h
      · obtain ⟨a, _, heq⟩ := List.mem_map.mp h
        exact heq.symm

/-! ## Initialization state-machine lemmas -/

/-- Reachability invariant of the `UniversalLogger` init state machine:
no promise means nothing has started; a promise means exactly one attempt
(number 0) has started. -/
def uniGood (st : UniInit) : Prop :=
  (st.initPromise = none →
    st.attemptsStarted = 0 ∧ st.isInitializing = false
      ∧ st.isInitialized = false)
  ∧ (∀ p, st.initPromise = some p → p = 0 ∧ st.attemptsStarted = 1)

theorem uniGood_start : uniGood UniInit.start := by
  constructor
  · intro _; exact ⟨rfl, rfl, rfl⟩
  · intro p h; cases h

theorem uniGood_step (dbUrl : Option String) (st : UniInit) (e : UniEv)
    (h : uniGood st) : uniGood (uniStep dbUrl st e) := by
  obtain ⟨hnone, hsome⟩ := h
  cases e with
  | auto =>
    show uniGood (uniAutoInit dbUrl st).1
    cases hp : st.initPromise with
    | some p =>
      have hstep : uniAutoInit dbUrl st = (st, some p) := by
        unfold uniAutoInit
        rw [hp]
      rw [hstep]
      exact ⟨hnone, hsome⟩
    | none =>
      obtain ⟨ha, hflag, hinit⟩ := hnone hp
      by_cases hu : jsTruthy dbUrl = true
      · have hstep : uniAutoInit dbUrl st =
            (⟨true, false, some 0, 1, st.mode⟩, some 0) := by
          unfold uniAutoInit
          rw [hp, hinit, hflag, ha]
          simp [hu]
        rw [hstep]
        refine ⟨?_, ?_⟩
        · intro hc
          exact Option.noConfusion hc
        · intro p hp'
          injection hp' with h
          subst h
          exact ⟨rfl, rfl⟩
      · have hstep : uniAutoInit dbUrl st = (st, none) := by
          unfold uniAutoInit
          rw [hp, hinit, hflag]
          simp [hu]
        rw [hstep]
        exact ⟨hnone, hsome⟩
  | complete s =>
    show uniGood (uniComplete s st)
    unfold uniComplete
    by_cases hi : st.isInitializing = true
    · rw [if_pos hi]
      cases s with
      | true =>
        refine ⟨fun hc => ?_, fun p hp' => hsome p hp'⟩
        obtain ⟨_, hflag, _⟩ := hnone hc
        rw [hflag] at hi
        cases hi
      | false =>
        refine ⟨fun hc => ?_, fun p hp' => hsome p hp'⟩
        obtain ⟨_, hflag, _⟩ := hnone hc
        rw [hflag] at hi
        cases hi
    · rw [if_neg hi]
      exact ⟨hnone, hsome⟩

theorem uniGood_run (dbUrl : Option String) :
    ∀ (evs : List UniEv) (st : UniInit), uniGood st →
      uniGood (uniRun dbUrl st evs) := by
  intro evs
  induction evs with
  | nil => intro st h; exact h
  | cons e rest ih =>
    intro st h
    exact ih (uniStep dbUrl st e) (uniGood_step dbUrl st e h)

/-- A state with a settled (non-in-flight) promise is a fixpoint: every
further `auto` or `complete` event leaves it unchanged. -/
theorem uniRun_fixpoint (dbUrl : Option String) (p : Nat) :
    ∀ (evs : List UniEv) (st : UniInit),
      st.initPromise = some p → st.isInitializing = false →
      uniRun dbUrl st evs = st := by
  intro evs
  induction evs with
  | nil => intro st _ _; rfl
  | cons e rest ih =>
    intro st hp hflag
    have hstep : uniStep dbUrl st e = st := by
      cases e with
      | auto =>
        show (uniAutoInit dbUrl st).1 = st
        unfold uniAutoInit
        rw [hp]
      | complete s =>
        show uniComplete s st = st
        unfold uniComplete
        rw [hflag]
        simp
    rw [show uniRun dbUrl st (e :: rest) = uniRun dbUrl (uniStep dbUrl st e) rest from rfl,
        hstep]
    exact ih st hp hflag

/-! ## `mongoConnect` lemmas -/

theorem mongoAttemptsAux_length_le (cs : String) (outcome : Nat → Bool) :
    ∀ (left r : Nat), (mongoAttemptsAux cs outcome r left).length ≤ left + 1 := by
  intro left
  induction left with
  | zero =>
    intro r
    unfold mongoAttemptsAux
    split <;> simp
  | succ left ih =>
    intro r
    unfold mongoAttemptsAux
    split
    · exact Nat.le_trans (ih (r + 1)) (by omega)
    · split
      · simp
      · simpa using Nat.succ_le_succ (Nat.le_trans (ih (r + 1)) (by omega))

theorem mongoAttempts_length_le (cs : String) (outcome : Nat → Bool) :
    (mongoAttempts cs outcome).length ≤ 4 :=
  mongoAttemptsAux_length_le cs outcome MAX_RETRY 0

/-- When the connection string is non-empty and every attempt fails, the
recursion performs exactly the four attempts 0, 1, 2, 3. -/
theorem mongoAttempts_allFail (cs : String) (outcome : Nat → Bool)
    (hcs : cs ≠ "") (h : ∀ k, outcome k = false) :
    mongoAttempts cs outcome = [0, 1, 2, 3] := by
  have step : ∀ r left, mongoAttemptsAux cs outcome r (left + 1) =
      r :: mongoAttemptsAux cs outcome (r + 1) left := by
    intro r left
    rw [mongoAttemptsAux]
    simp [hcs, h r]
  have base : mongoAttemptsAux cs outcome 3 0 = [3] := by
    rw [mongoAttemptsAux]
    simp [hcs]
  have e1 : mongoAttemptsAux cs outcome 2 1 = [2, 3] := by
    have hs := step 2 0
    rw [base] at hs
    exact hs
  have e2 : mongoAttemptsAux cs outcome 1 2 = [1, 2, 3] := by
    have hs := step 1 1
    rw [e1] at hs
    exact hs
  have e3 : mongoAttemptsAux cs outcome 0 3 = [0, 1, 2, 3] := by
    have hs := step 0 2
    rw [e2] at hs
    exact hs
  exact e3

/-! ## More run lemmas -/

theorem uniRun_append (dbUrl : Option String) :
    ∀ (l1 l2 : List UniEv) (st : UniInit),
      uniRun dbUrl st (l1 ++ l2) = uniRun dbUrl (uniRun dbUrl st l1) l2 := by
  intro l1
  induction l1 with
  | nil => intro l2 st; rfl
  | cons e rest ih => intro l2 st; exact ih l2 (uniStep dbUrl st e)

/-- With no connection string configured, the init state machine never
leaves its start state: `#autoInitDatabase` returns before any attempt. -/
theorem uniRun_none_start :
    ∀ (evs : List UniEv), uniRun none UniInit.start evs = UniInit.start := by
  intro evs
  induction evs with
  | nil => rfl
  | cons e rest ih =>
    cases e with
    | auto => exact ih
    | complete s => exact ih

/-- With a truthy connection string, `auto` followed by a failed
completion lands in the permanently settled failed state. -/
theorem uniRun_failedInit (u : String) (hu : u ≠ "") :
    uniRun (some u) UniInit.start [.auto, .complete false] =
      ⟨false, false, some 0, 1, .console⟩ := by
  have ht : jsTruthy (some u) = true := by simp [jsTruthy, hu]
  have h1 : uniAutoInit (some u) UniInit.start =
      (⟨true, false, some 0, 1, .console⟩, some 0) := by
    unfold uniAutoInit UniInit.start
    simp [ht]
  show uniComplete false (uniAutoInit (some u) UniInit.start).1 = _
  rw [h1]
  rfl

theorem univLog_ok (env : ProcEnv) (cenv : ContextEnv) (mode : Mode)
    (sn : String) (lvl : Level) (msg : String) (meta : Meta) (ts : String)
    (ctx : Ctx) (hc : getContext cenv = some ctx) :
    univLog env cenv mode sn lvl msg meta ts =
      .ok (dispatch env mode (mkLogData env sn ctx lvl msg meta) ts) := by
  unfold univLog
  rw [hc]

theorem consoleLinesOf_ok (o : LogOutput) :
    consoleLinesOf (.ok o) = o.consoleLines := rfl

theorem fileLinesOf_ok (o : LogOutput) :
    fileLinesOf (.ok o) = o.fileLines := rfl

/-! ## Claims -/

/-- C1: for every sequence of `getLoggerInstance`/`createLogger` calls and
every service name `X`, exactly one `UniversalLogger` for `X` is
constructed when `X` is requested at all (and none otherwise), and every
call with `X` returns the one instance under which `X` is bound in the
registry; likewise `part_004`'s `getLogger` constructs its `Logger` at
most once (exactly once given at least one call) and every call returns
the instance of the first call. -/
theorem C1_registry_single_instance (calls : List String) (X : String) :
    ((runCalls RegState.init calls).2.constructions.count X =
      if X ∈ calls then 1 else 0)
    ∧ (∀ p ∈ calls.zip (runCalls RegState.init calls).1, p.1 = X →
        some p.2 = lookupName (runCalls RegState.init calls).2.map X)
    ∧ (∀ names : List String,
        (p4Run P4State.start names).2.constructions =
          (if names = [] then 0 else 1)
        ∧ ∀ r ∈ (p4Run P4State.start names).1, r = 0) := by
  obtain ⟨h1, _, h3⟩ := runCalls_spec X calls RegState.init
  refine ⟨?_, h3, fun names => p4Run_spec names⟩
  rw [h1]
  simp [RegState.init, lookupName]

/-- C1 witness: on the call sequence `["X", "Y", "X"]`, exactly one
instance for `"X"` is constructed and the third call (with `"X"`) returns
the id bound to `"X"` in the final registry. -/
theorem C1_registry_single_instance_witness :
    (runCalls RegState.init ["X", "Y", "X"]).2.constructions.count "X" = 1
    ∧ some 0 =
        lookupName (runCalls RegState.init ["X", "Y", "X"]).2.map "X" := by
  refine ⟨?_, ?_⟩
  · have h := (C1_registry_single_instance ["X", "Y", "X"] "X").1
    rw [h]
    decide
  · exact (C1_registry_single_instance ["X", "Y", "X"] "X").2.1 ("X", 0)
      (by decide) rfl

/-- C2 counterexample: with a non-empty connection string and every
attempt failing, `mongoConnect` executes four connection attempts
(retry indices 0, 1, 2, 3), refuting "at most 3 attempts in total". -/
theorem C2_counterexample_four_attempts :
    ¬ ((mongoAttempts "mongodb://db" (fun _ => false)).length ≤ 3) := by
  decide

/-- C2 amended: `mongoConnect` makes at most 4 attempts in total (one
initial plus `MAX_RETRY = 3` retries); when every attempt fails the
attempt sequence is exactly 0, 1, 2, 3 and then stops; and in
`UniversalLogger`, after the single initialization attempt fails, the
state is permanently settled: the logger stays in console mode
(persistent-store sink degraded) and no event can ever start another
attempt. -/
theorem C2_retry_bound_amended (cs : String) (outcome : Nat → Bool)
    (u : String) (evs : List UniEv) (hu : u ≠ "") :
    (mongoAttempts cs outcome).length ≤ 4
    ∧ (cs ≠ "" → (∀ k, outcome k = false) →
        mongoAttempts cs outcome = [0, 1, 2, 3])
    ∧ uniRun (some u) UniInit.start ([.auto, .complete false] ++ evs) =
        ⟨false, false, some 0, 1, .console⟩ := by
  refine ⟨mongoAttempts_length_le cs outcome,
    fun hcs hall => mongoAttempts_allFail cs outcome hcs hall, ?_⟩
  rw [uniRun_append (some u) [.auto, .complete false] evs UniInit.start,
      uniRun_failedInit u hu]
  exact uniRun_fixpoint (some u) 0 evs _ rfl rfl

/-- C2 witness: concrete instantiation of the amended bound with an
always-failing outcome and connection string `"mongodb://db"`. -/
theorem C2_retry_bound_amended_witness :
    (mongoAttempts "mongodb://db" (fun _ => false)).length ≤ 4
    ∧ mongoAttempts "mongodb://db" (fun _ => false) = [0, 1, 2, 3]
    ∧ uniRun (some "mongodb://db") UniInit.start [.auto, .complete false] =
        ⟨false, false, some 0, 1, .console⟩ :=
  ⟨(C2_retry_bound_amended "mongodb://db" (fun _ => false) "mongodb://db" []
      (by decide)).1,
   (C2_retry_bound_amended "mongodb://db" (fun _ => false) "mongodb://db" []
      (by decide)).2.1 (by decide) (fun _ => rfl),
   (C2_retry_bound_amended "mongodb://db" (fun _ => false) "mongodb://db" []
      (by decide)).2.2⟩

/-- C10: whenever `mongoConnect`'s first attempt fails (with a non-empty
connection string), the returned promise resolves with `undefined`
(`.ok none`) no matter how later retry attempts fare — the recursive
retry is neither awaited nor returned; and when every attempt fails, the
deepest orphaned retry (at `retry = MAX_RETRY`) rejects, an error that
never reaches the original caller's promise. -/
theorem C10_retry_result_discarded (cs : String) (outcome : Nat → Bool)
    (hcs : cs ≠ "") (h0 : outcome 0 = false) :
    mongoConnectResult cs outcome 0 = .ok none
    ∧ ((∀ k, outcome k = false) →
        mongoConnectResult cs outcome MAX_RETRY = .error "connect failed") := by
  constructor
  · unfold mongoConnectResult
    rw [if_neg hcs, h0]
    simp [MAX_RETRY]
  · intro hall
    unfold mongoConnectResult
    rw [if_neg hcs, hall MAX_RETRY]
    simp [MAX_RETRY]

/-- C10 witness: with an outcome where attempt 0 fails and the retry at
index 1 succeeds, the caller still receives `undefined` while the orphan
chain really did connect on attempt 1. -/
theorem C10_retry_result_discarded_witness :
    mongoConnectResult "mongodb://db" (fun k => k == 1) 0 = .ok none
    ∧ mongoAttempts "mongodb://db" (fun k => k == 1) = [0, 1] :=
  ⟨(C10_retry_result_discarded "mongodb://db" (fun k => k == 1)
      (by decide) rfl).1,
   by decide⟩

/-- C3: the claim that every logging call returns normally fails on one
code path: `#getContext` guards a missing cls namespace
(`namespace ? namespace.active : {}`) but not a missing `active`, so when
`global.cls` exposes a `"request"` namespace with no bound context
(`active` is `null`, the normal cls idle state), `#getContext` returns
`null` and the field accesses in `#log` raise a `TypeError` to the
caller.  By contrast, a context lookup that *throws* is caught (yielding
`{}`), and the same call in a cls-free environment returns normally with
a console line — so the escape is precisely the unguarded `active`. -/
theorem C3_cls_null_context_raises :
    getContext { requestContextGet := none, cls := some (some none) } = none
    ∧ univLog {} { requestContextGet := none, cls := some (some none) }
        .console "Logs" .info "hello" {} "T" =
        .error "TypeError: cannot read properties of null"
    ∧ getContext { requestContextGet := some (.error "boom"), cls := none } =
        some Ctx.empty
    ∧ univLog {} {} .console "Logs" .info "hello" {} "T" =
        .ok { consoleLines := [.custom "T" .info "hello"]
              fileLines := []
              mongoWrites := [] }
    ∧ (∀ (ctx : Ctx) (lvl : Level) (msg e : String),
        p4Log ctx lvl msg (.error e) =
          .ok { consoleMessage := p4ConsoleMessage ctx msg
                dbErrorReports := ["Failed to log to DB: " ++ e] }) :=
  ⟨rfl, rfl, rfl, rfl, fun _ _ _ _ => rfl⟩

/-- C4: with no connection string configured (`DB_URL` absent),
initialization is a silent no-op — the state machine never leaves its
start state and makes zero connection attempts — and `info("hello")`
still returns normally with exactly one console line in the custom
format and no persistent-store write. -/
theorem C4_no_connection_string_degraded (msg ts sn : String)
    (evs : List UniEv) :
    uniRun none UniInit.start evs = UniInit.start
    ∧ (uniRun none UniInit.start evs).attemptsStarted = 0
    ∧ (uniRun none UniInit.start evs).mode = .console
    ∧ univLog {} {} .console sn .info msg {} ts =
        .ok { consoleLines := [.custom ts .info msg]
              fileLines := []
              mongoWrites := [] } := by
  refine ⟨uniRun_none_start evs, ?_, ?_, rfl⟩
  · rw [uniRun_none_start evs]
    rfl
  · rw [uniRun_none_start evs]
    rfl

/-- C5 counterexample: after a successful persistent-store
initialization, the reconfigured logger (`#reconfigureWithDatabase`) has
only File and MongoDB transports, so an `info` call produces no console
line at all — refuting "in every state the Console sink produces a
line `<timestamp> [<LEVEL>]: <message>`". -/
theorem C5_counterexample_no_console_after_init :
    consoleLinesOf (univLog {} {} .db "Logs" .info "hello" {} "T") = []
    ∧ [OutLine.custom "T" .info "hello"] ≠ ([] : List OutLine) :=
  ⟨rfl, by decide⟩

/-- C5 amended: while the logger holds its console configuration (before
and during persistent-store initialization, and again after a failed
one), every logging call whose level passes the configured threshold
(`LOG_LEVEL || "info"`) produces exactly one console line rendered as
`<timestamp> [<LEVEL>]: <message>` with the level uppercased; after a
successful reconfiguration with the database, no console transport exists
and no console line is produced. -/
theorem C5_console_format_amended (env : ProcEnv) (cenv : ContextEnv)
    (sn msg ts : String) (lvl : Level) (meta : Meta) (ctx : Ctx)
    (hc : getContext cenv = some ctx)
    (hl : lvl.priority ≤ env.effLevel.priority) :
    consoleLinesOf (univLog env cenv .console sn lvl msg meta ts) =
      [.custom ts lvl msg]
    ∧ (OutLine.custom ts lvl msg).render =
        some (ts ++ " [" ++ lvl.upperName ++ "]: " ++ msg)
    ∧ consoleLinesOf (univLog env cenv .db sn lvl msg meta ts) = [] := by
  refine ⟨?_, rfl, ?_⟩
  · rw [univLog_ok env cenv .console sn lvl msg meta ts ctx hc,
      consoleLinesOf_ok, dispatch_console_consoleLines]
    simp only [mkLogData_level, mkLogData_message]
    rw [if_pos hl]
  · rw [univLog_ok env cenv .db sn lvl msg meta ts ctx hc,
      consoleLinesOf_ok, dispatch_db_consoleLines]

/-- C5 witness: an `info` call in the default environment, console
configuration. -/
theorem C5_console_format_amended_witness :
    consoleLinesOf (univLog {} {} .console "Logs" .info "hello" {} "T") =
      [.custom "T" .info "hello"] :=
  (C5_console_format_amended {} {} "Logs" "hello" "T" .info {} Ctx.empty rfl
    (by decide)).1

/-- C6 counterexample: the `...meta` spread in `#log` comes after the
computed fields, so caller-supplied extras override them — an `error`
call with `meta = {requestId: "OVERRIDE"}` and no bound context yields a
record whose `requestId` is not the sentinel, refuting the claim for
arbitrary extra-fields arguments. -/
theorem C6_counterexample_meta_override :
    (mkLogData {} "Logs" Ctx.empty .error "boom"
      { requestId := some "OVERRIDE", service := none }).requestId =
        "OVERRIDE"
    ∧ "OVERRIDE" ≠ "NO-REQ" :=
  ⟨rfl, by decide⟩

/-- C6 amended: for every record produced while no active request context
is bound (context `requestId`/`service` absent or empty), provided the
caller's extra fields do not themselves carry `requestId`/`service` keys
(which the trailing spread would let override the computed values), the
record's `requestId` is the sentinel `"NO-REQ"` and its `service` is the
instance's (non-empty) default service name; `part_004`'s console message
uses the `"NO-ID"` sentinel prefix. -/
theorem C6_sentinel_amended (env : ProcEnv) (sn msg : String) (lvl : Level)
    (meta : Meta) (ctx : Ctx)
    (hm1 : meta.requestId = none) (hm2 : meta.service = none)
    (hsn : sn ≠ "")
    (hr : jsTruthy ctx.requestId = false)
    (hs : jsTruthy ctx.service = false) :
    (mkLogData env sn ctx lvl msg meta).requestId = "NO-REQ"
    ∧ (mkLogData env sn ctx lvl msg meta).service = sn
    ∧ getContext {} = some Ctx.empty
    ∧ p4ConsoleMessage ctx msg = "[NO-ID] " ++ msg := by
  have hsn' : jsTruthy (some sn) = true := by simp [jsTruthy, hsn]
  refine ⟨?_, ?_, rfl, ?_⟩
  · simp [mkLogData, hm1, jsOrD, hr]
  · simp [mkLogData, hm2, jsOrV, hs, hsn']
  · unfold p4ConsoleMessage
    rw [show jsOrD ctx.requestId "NO-ID" = "NO-ID" from by
      simp [jsOrD, hr]]
    rfl

/-- C6 witness: an `error("boom")` call on the `"Logs"` instance with
empty context and empty extras. -/
theorem C6_sentinel_amended_witness :
    (mkLogData {} "Logs" Ctx.empty .error "boom" {}).requestId = "NO-REQ"
    ∧ (mkLogData {} "Logs" Ctx.empty .error "boom" {}).service = "Logs"
    ∧ p4ConsoleMessage Ctx.empty "boom" = "[NO-ID] boom" :=
  ⟨(C6_sentinel_amended {} "Logs" "boom" .error {} Ctx.empty rfl rfl
      (by decide) rfl rfl).1,
   (C6_sentinel_amended {} "Logs" "boom" .error {} Ctx.empty rfl rfl
      (by decide) rfl rfl).2.1,
   (C6_sentinel_amended {} "Logs" "boom" .error {} Ctx.empty rfl rfl
      (by decide) rfl rfl).2.2.2⟩

/-- C7 counterexample: the second `UniversalLogger` variant's `#log`
computes `service` as `process.env.SERVICE_NAME ||
process.env.npm_package_name || "app"`, ignoring the ambient context —
with a context carrying `service = "payments"` and no env overrides it
yields `"app"`, refuting the claimed context-first precedence for that
variant. -/
theorem C7_counterexample_v2_ignores_context :
    jsTruthy ({ Ctx.empty with service := some "payments" } : Ctx).service =
      true
    ∧ v2Service {} { Ctx.empty with service := some "payments" } = "app"
    ∧ "app" ≠ "payments" :=
  ⟨rfl, rfl, by decide⟩

/-- C7 amended: in the registry variant (extras carrying no `service`
key), the record's `service` follows the precedence: the ambient
context's truthy `service` value, otherwise the instance's configured
(truthy) service name, otherwise the process-level default
(`SERVICE_NAME || "app"`); in the second variant, `service` is computed
from process-level defaults alone and is independent of the ambient
context. -/
theorem C7_service_precedence_amended (env : ProcEnv) (sn msg : String)
    (lvl : Level) (meta : Meta) (ctx : Ctx) (hm : meta.service = none) :
    (∀ s, ctx.service = some s → s ≠ "" →
      (mkLogData env sn ctx lvl msg meta).service = s)
    ∧ (jsTruthy ctx.service = false → sn ≠ "" →
        (mkLogData env sn ctx lvl msg meta).service = sn)
    ∧ (jsTruthy ctx.service = false → sn = "" →
        (mkLogData env sn ctx lvl msg meta).service =
          (jsOrV env.SERVICE_NAME (some "app")).getD "app")
    ∧ (∀ ctx' : Ctx, v2Service env ctx' = v2Service env Ctx.empty) := by
  refine ⟨?_, ?_, ?_, fun ctx' => rfl⟩
  · intro s hcs hs
    have h2 : jsTruthy (some s) = true := by simp [jsTruthy, hs]
    simp [mkLogData, hm, jsOrV, hcs, h2]
  · intro hcs hsn
    have h1 : jsTruthy (some sn) = true := by simp [jsTruthy, hsn]
    simp [mkLogData, hm, jsOrV, hcs, h1]
  · intro hcs hsn
    have h1 : jsTruthy (some sn) = false := by simp [jsTruthy, hsn]
    simp [mkLogData, hm, jsOrV, hcs, h1]

/-- C7 witness: a context with `service = "svc"` wins over instance and
process defaults in the registry variant. -/
theorem C7_service_precedence_amended_witness :
    (mkLogData {} "Logs" { Ctx.empty with service := some "svc" }
      .info "m" {}).service = "svc" :=
  (C7_service_precedence_amended {} "Logs" "m" .info {}
    { Ctx.empty with service := some "svc" } rfl).1 "svc" rfl (by decide)

/-- C8: in both logger configurations (console-configured and
database-reconfigured), a logging call that returns normally produces a
file write exactly when its level is `error` — the File transport is
registered with `level: "error"` in `#initConsoleLogger` and
`#reconfigureWithDatabase` alike, so `info`/`warn`/`debug` never reach
it and every `error` record does. -/
theorem C8_file_sink_error_only (env : ProcEnv) (cenv : ContextEnv)
    (mode : Mode) (sn msg ts : String) (lvl : Level) (meta : Meta)
    (out : LogOutput)
    (h : univLog env cenv mode sn lvl msg meta ts = .ok out) :
    out.fileLines ≠ [] ↔ lvl = .error := by
  unfold univLog at h
  cases hc : getContext cenv with
  | none =>
    rw [hc] at h
    cases h
  | some ctx =>
    rw [hc] at h
    injection h with h
    subst h
    cases mode with
    | console =>
      rw [dispatch_console_fileLines]
      simp only [mkLogData_level, mkLogData_message]
      by_cases hl : lvl = .error <;> simp [hl]
    | db =>
      rw [dispatch_db_fileLines]
      simp only [mkLogData_level]
      by_cases hl : lvl = .error <;> simp [hl]

/-- C8 witness: an `error` call in the console configuration produces a
non-empty file output, matching the equivalence at `lvl = error`. -/
theorem C8_file_sink_error_only_witness :
    ({ consoleLines := [.custom "T" .error "boom"]
       fileLines := [.custom "T" .error "boom"]
       mongoWrites := [] } : LogOutput).fileLines ≠ []
      ↔ Level.error = Level.error :=
  C8_file_sink_error_only {} {} .console "Logs" "boom" "T" .error {} _ rfl

/-- C9: over every event sequence of the init state machine, at most one
connection attempt is ever started (its promise, when present, is the one
for attempt 0), and once `#initPromise` is set — attempt in flight,
succeeded, or failed — a further `#autoInitDatabase` invocation returns
that same promise and changes nothing: initialization is idempotent and
single-flight per instance. -/
theorem C9_init_idempotent_single_flight (dbUrl : Option String)
    (evs : List UniEv) :
    (uniRun dbUrl UniInit.start evs).attemptsStarted ≤ 1
    ∧ ((uniRun dbUrl UniInit.start evs).initPromise = none
        ∨ (uniRun dbUrl UniInit.start evs).initPromise = some 0)
    ∧ (∀ p, (uniRun dbUrl UniInit.start evs).initPromise = some p →
        uniAutoInit dbUrl (uniRun dbUrl UniInit.start evs) =
          (uniRun dbUrl UniInit.start evs, some p)) := by
  obtain ⟨hnone, hsome⟩ :=
    uniGood_run dbUrl evs UniInit.start uniGood_start
  refine ⟨?_, ?_, ?_⟩
  · cases hp : (uniRun dbUrl UniInit.start evs).initPromise with
    | none =>
      rw [(hnone hp).1]
      omega
    | some p =>
      rw [(hsome p hp).2]
  · cases hp : (uniRun dbUrl UniInit.start evs).initPromise with
    | none => exact Or.inl rfl
    | some p =>
      exact Or.inr (by rw [(hsome p hp).1])
  · intro p hp
    unfold uniAutoInit
    rw [hp]

/-- C9 witness: after a successful initialization, a further `auto` event
is a no-op and the re-invocation observes the original attempt's
promise. -/
theorem C9_init_idempotent_single_flight_witness :
    (uniRun (some "mongodb://db") UniInit.start
      [.auto, .complete true, .auto]).attemptsStarted ≤ 1
    ∧ uniAutoInit (some "mongodb://db")
        (uniRun (some "mongodb://db") UniInit.start
          [.auto, .complete true, .auto]) =
        (uniRun (some "mongodb://db") UniInit.start
          [.auto, .complete true, .auto], some 0) :=
  ⟨(C9_init_idempotent_single_flight (some "mongodb://db")
      [.auto, .complete true, .auto]).1,
   (C9_init_idempotent_single_flight (some "mongodb://db")
      [.auto, .complete true, .auto]).2.2 0 (by decide)⟩

end HelperUtils
